import Mathlib

/-!
Verification development for the CovenantSQL core subsystems: the storage
two-phase-commit participant, the coordinator database service (node
allocation, peer-set construction, batched worker RPC fan-out), the worker
database manager (registry reconciliation, meta persistence), and the
private key store.

Each Go function in scope is translated into an executable Lean definition.
The SQL engine, the RPC transport, the consistent-hashing ring, the node
metric collector and the cryptographic primitives are external collaborators
of the code under verification; they enter the model as explicit oracle
parameters (environment structures), so that the control flow of the
translated functions is exactly the control flow of the source.
-/

namespace CovenantSQL

/-! ## Storage participant (package storage)

Source: the storage section of src/crypto/kms/privatekeystore.go
(package storage in the repository), functions Prepare, Commit, Rollback,
Query, Exec over the Storage struct.
-/

namespace Storage

/-- TxID represents a transaction ID: connection id, sequence number,
timestamp (source struct TxID). -/
structure TxID where
  connectionID : Nat
  seqNo : Nat
  timestamp : Int
deriving DecidableEq, Repr

/-- equalTxID compares two transaction IDs component-wise (source func
equalTxID). -/
def equalTxID (x y : TxID) : Bool :=
  x.connectionID == y.connectionID && x.seqNo == y.seqNo && x.timestamp == y.timestamp

/-- ExecLog represents the execution log passed as the two-phase-commit
write batch (source struct ExecLog). -/
structure ExecLog where
  connectionID : Nat
  seqNo : Nat
  timestamp : Int
  queries : List String
deriving DecidableEq, Repr

/-- The TxID carried by an ExecLog, as assembled inline at each use site in
the source: TxID.ConnectionID, el.SeqNo, el.Timestamp. -/
def ExecLog.txID (el : ExecLog) : TxID :=
  { connectionID := el.connectionID, seqNo := el.seqNo, timestamp := el.timestamp }

/-- The twopc.WriteBatch argument: the source downcasts it to an ExecLog and
fails with a bad-batch error on any other dynamic type. -/
inductive WriteBatch where
  | execLog (el : ExecLog)
  | other
deriving DecidableEq, Repr

/-- An error reported by the underlying SQL engine (driver errors are opaque
strings to the participant). -/
structure SQLError where
  msg : String
deriving DecidableEq, Repr

/-- Errors returned by the participant operations, one constructor per
distinct error produced by the source. -/
inductive StorageError where
  | badBatch
  | inconsistentState (cur : TxID)
  | notPrepared
  | sql (e : SQLError)
deriving DecidableEq, Repr

/-- The mutable fields of the Storage struct that the participant operations
read and write: whether the current tx handle is non-nil, the recorded
transaction id, and the buffered query list. -/
structure State where
  txActive : Bool
  id : TxID
  queries : List String
deriving DecidableEq, Repr

/-- The zero value of the Storage struct right after New: nil tx handle,
zero TxID, nil query slice. -/
def initialState : State :=
  { txActive := false
    id := { connectionID := 0, seqNo := 0, timestamp := 0 }
    queries := [] }

/-- Oracle for the external SQL engine: outcomes of BeginTx, of executing a
single statement inside the open transaction, of the final tx.Commit, of a
read-only query, and of a direct exec. The participant logic never inspects
these beyond the translated control flow. -/
structure SQLEnv where
  beginTx : Except SQLError Unit
  execStmt : String → Except SQLError Unit
  commitTx : Except SQLError Unit
  runQuery : String → Except SQLError (List String × List String × List (List String))
  runExec : String → Except SQLError Int

/-- Prepare implements the prepare method of the two-phase commit worker
(source func (s *Storage) Prepare). It records the incoming TxID and query
list without executing anything; with a transaction already active it is an
idempotent buffer overwrite on a matching TxID and an inconsistent-state
error otherwise. -/
def Prepare (env : SQLEnv) (wb : WriteBatch) (s : State) :
    Except StorageError Unit × State :=
  match wb with
  | .other => (.error .badBatch, s)
  | .execLog el =>
    if s.txActive then
      if equalTxID s.id el.txID then
        (.ok (), { s with queries := el.queries })
      else
        (.error (.inconsistentState s.id), s)
    else
      match env.beginTx with
      | .error e => (.error (.sql e), s)
      | .ok _ =>
        (.ok (), { txActive := true, id := el.txID, queries := el.queries })

/-- Replays the buffered statements in order against the engine, stopping at
the first failure (the loop body of Commit in the source). -/
def runQueries (env : SQLEnv) : List String → Option SQLError
  | [] => none
  | q :: rest =>
    match env.execStmt q with
    | .error e => some e
    | .ok _ => runQueries env rest

/-- Commit implements the commit method of the two-phase commit worker
(source func (s *Storage) Commit). On a matching active transaction it
replays the buffered statements; the first failing statement rolls the
transaction back, nils the tx handle and the query buffer (the id field is
left holding its last value, as in the source) and surfaces the statement
error. When every statement succeeds the source calls s.tx.Commit and
discards its result, then nils the handle and the buffer. -/
def Commit (env : SQLEnv) (wb : WriteBatch) (s : State) :
    Except StorageError Unit × State :=
  match wb with
  | .other => (.error .badBatch, s)
  | .execLog el =>
    if s.txActive then
      if equalTxID s.id el.txID then
        match runQueries env s.queries with
        | some e =>
          (.error (.sql e), { s with txActive := false, queries := [] })
        | none =>
          match env.commitTx with
          | _ => (.ok (), { s with txActive := false, queries := [] })
      else
        (.error (.inconsistentState s.id), s)
    else
      (.error .notPrepared, s)

/-- Rollback implements the rollback method of the two-phase commit worker
(source func (s *Storage) Rollback). The incoming TxID must equal the
recorded one; a redundant rollback with no live tx handle is tolerated. The
id field is never zeroed. -/
def Rollback (wb : WriteBatch) (s : State) :
    Except StorageError Unit × State :=
  match wb with
  | .other => (.error .badBatch, s)
  | .execLog el =>
    if equalTxID s.id el.txID then
      if s.txActive then
        (.ok (), { s with txActive := false, queries := [] })
      else
        (.ok (), s)
    else
      (.error (.inconsistentState s.id), s)

/-- Result of the read-only Query operation: column names, type names, rows,
an optional error, and whether a transaction was opened against the engine. -/
structure QueryOutcome where
  columns : List String
  types : List String
  rows : List (List String)
  err : Option SQLError
  txOpened : Bool
deriving DecidableEq, Repr

/-- Query implements the read-only query feature (source func (s *Storage)
Query). An empty statement list returns immediately with the empty row set
made at the top of the function; otherwise a read-only transaction is opened
and only the first statement runs (row scanning is folded into the engine
oracle). The transaction is always rolled back on exit. -/
def Query (env : SQLEnv) (stmts : List String) : QueryOutcome :=
  match stmts with
  | [] => { columns := [], types := [], rows := [], err := none, txOpened := false }
  | q :: _ =>
    match env.beginTx with
    | .error e =>
      { columns := [], types := [], rows := [], err := some e, txOpened := false }
    | .ok _ =>
      match env.runQuery q with
      | .error e =>
        { columns := [], types := [], rows := [], err := some e, txOpened := true }
      | .ok res =>
        { columns := res.1, types := res.2.1, rows := res.2.2, err := none, txOpened := true }

/-- Result of the direct Exec operation: affected-row count, optional error,
and whether a transaction was opened against the engine. -/
structure ExecOutcome where
  rowsAffected : Int
  err : Option SQLError
  txOpened : Bool
deriving DecidableEq, Repr

/-- Exec implements the direct write feature (source func (s *Storage)
Exec). An empty statement list returns immediately with the zero affected
count; otherwise a read-write transaction is opened, the first statement
runs and the transaction commit result is discarded. -/
def Exec (env : SQLEnv) (stmts : List String) : ExecOutcome :=
  match stmts with
  | [] => { rowsAffected := 0, err := none, txOpened := false }
  | q :: _ =>
    match env.beginTx with
    | .error e => { rowsAffected := 0, err := some e, txOpened := false }
    | .ok _ =>
      match env.runExec q with
      | .error e => { rowsAffected := 0, err := some e, txOpened := true }
      | .ok n =>
        match env.commitTx with
        | _ => { rowsAffected := n, err := none, txOpened := true }

end Storage

/-! ## DB Service (package blockproducer)

Source: src/unnamed/part_000, functions batchSendSvcReq,
batchSendSingleSvcReq, allocateNodes, buildPeers, peersToNodes,
CreateDatabase over the DBService struct.
-/

namespace blockproducer

/-- Node identifiers (proto.NodeID). -/
abbrev NodeID := Nat

/-- An error returned by a worker RPC call (opaque to the coordinator). -/
abbrev RPCError := Nat

/-- A node record as returned by the consistent-hashing ring (proto.Node):
identifier plus public key. -/
structure Node where
  id : NodeID
  publicKey : Nat
deriving DecidableEq, Repr

/-- Replication role of a server inside a peer set (conf.Leader and
conf.Follower). -/
inductive ServerRole where
  | leader
  | follower
deriving DecidableEq, Repr

/-- A kayak.Server entry of a peer set. -/
structure Server where
  role : ServerRole
  id : NodeID
  pubKey : Nat
deriving DecidableEq, Repr

/-- A kayak.Peers value: term, the servers slice (slots may hold nil
pointers, modelled as none) and the leader pointer. The coordinator public
key and the signature are produced by external crypto and carry no logic
here. -/
structure Peers where
  term : Nat
  servers : List (Option Server)
  leader : Option Server
deriving DecidableEq, Repr

/-- DefaultAllocationRounds from the source constants. -/
def DefaultAllocationRounds : Nat := 3

/-- The requested resources (wt.ResourceMeta): replica count and the memory
floor in bytes. -/
structure ResourceMeta where
  node : Nat
  memory : Nat
deriving DecidableEq, Repr

/-- Outcome of looking a node up in the metric map: the node may be absent
from the map returned by GetMetrics, the metric family may be present but
unusable (getMetric returns ErrMetricNotCollected), or a free-memory value
is available. -/
inductive MetricResult where
  | absent
  | collectFailed
  | value (v : Nat)
deriving DecidableEq, Repr

/-- Oracles for the external collaborators of allocateNodes: the consistent
ring neighbour query (indexed by curRange), the per-node free-memory metric,
and the random leader index drawn by rand.Intn inside buildPeers. -/
structure AllocEnv where
  getNeighbors : Nat → List Node
  metricOf : NodeID → MetricResult
  leaderIdx : Nat

/-- Errors out of the allocation path. databaseAllocation is
ErrDatabaseAllocation (the AllocationFailed kind); indexPanic marks the
run-time panic of buildPeers writing past the end of the servers slice. -/
inductive AllocError where
  | databaseAllocation
  | indexPanic
deriving DecidableEq, Repr

/-- One server record as assembled in the loop body of buildPeers: follower
role by default, leader role exactly at the drawn leader index. -/
def mkServer (leaderIdx idx : Nat) (node : Node) : Server :=
  { role := if idx = leaderIdx then .leader else .follower
    id := node.id
    pubKey := node.publicKey }

/-- The loop of buildPeers that walks allocatedNodes with a running index,
building one server per visited node. -/
def assignServers (leaderIdx : Nat) : Nat → List Node → List Server
  | _, [] => []
  | idx, n :: rest => mkServer leaderIdx idx n :: assignServers leaderIdx (idx + 1) rest

/-- buildPeers translates the source func (s *DBService) buildPeers. The
source builds allocatedMap from the allocated list but never reads it, and
then appends every element of nodes to allocatedNodes, so the servers slice
of length (allocated count) is filled from the full neighbour list: when
nodes is longer than allocated the write at index (allocated count) panics,
modelled as none; when it is shorter the remaining slots keep their nil
pointers. The leader pointer is set in the iteration that reaches the drawn
leader index. Signing happens in external crypto and is not modelled. -/
def buildPeers (term : Nat) (nodes : List Node) (allocated : List NodeID)
    (leaderIdx : Nat) : Option Peers :=
  let allocatedNodes := nodes
  if allocatedNodes.length ≤ allocated.length then
    some
      { term := term
        servers := (assignServers leaderIdx 0 allocatedNodes).map some ++
          List.replicate (allocated.length - allocatedNodes.length) none
        leader := (allocatedNodes.get? leaderIdx).map (mkServer leaderIdx leaderIdx) }
  else
    none

/-- The metric scan of one allocation round (the range over the metric map
in the source): nodes with a usable free-memory metric strictly above the
floor are allocated, the others are added to the exclusion set; nodes absent
from the metric map are silently skipped. The source iterates a Go map in
unspecified order; the model iterates the queried id list in order, which
the settled statements never depend on. Returns the allocated ids and the
newly excluded ids. -/
def scanMetrics (env : AllocEnv) (memFloor : Nat) :
    List NodeID → List NodeID × List NodeID
  | [] => ([], [])
  | nid :: rest =>
    match env.metricOf nid with
    | .absent => scanMetrics env memFloor rest
    | .collectFailed =>
      let r := scanMetrics env memFloor rest
      (r.1, nid :: r.2)
    | .value v =>
      if memFloor < v then
        let r := scanMetrics env memFloor rest
        (nid :: r.1, r.2)
      else
        let r := scanMetrics env memFloor rest
        (r.1, nid :: r.2)

/-- The candidate id list of one allocation round: the ids of the queried
neighbours with the exclusion set filtered out (the nodeIDs slice built at
the top of each round in the source). -/
def candidateNodeIDs (env : AllocEnv) (curRange : Nat) (exclude : List NodeID) :
    List NodeID :=
  ((env.getNeighbors curRange).map Node.id).filter (fun nid => !exclude.contains nid)

/-- The round loop of allocateNodes, with the number of remaining rounds as
fuel. Each round queries curRange neighbours, filters the exclusion set and,
with fewer than N candidates, continues without touching curRange (the
source continue statement skips the widening line); otherwise it scans the
metrics, extends the exclusion set, and either builds the peer set from the
first N allocated nodes or retries with curRange widened by N. The returned
list records the curRange value used by each executed round. -/
def allocateLoop (env : AllocEnv) (meta : ResourceMeta) (lastTerm : Nat) :
    Nat → Nat → List NodeID → Except AllocError Peers × List Nat
  | 0, _, _ => (.error .databaseAllocation, [])
  | r + 1, curRange, exclude =>
    let nodes := env.getNeighbors curRange
    let nodeIDs := candidateNodeIDs env curRange exclude
    if nodeIDs.length < meta.node then
      let res := allocateLoop env meta lastTerm r curRange exclude
      (res.1, curRange :: res.2)
    else
      let scan := scanMetrics env meta.memory nodeIDs
      if meta.node ≤ scan.1.length then
        match buildPeers (lastTerm + 1) nodes (scan.1.take meta.node) env.leaderIdx with
        | some p => (.ok p, [curRange])
        | none => (.error .indexPanic, [curRange])
      else
        let res := allocateLoop env meta lastTerm r (curRange + meta.node) (exclude ++ scan.2)
        (res.1, curRange :: res.2)

/-- allocateNodes translates the source func (s *DBService) allocateNodes:
a non-positive replica count is ErrDatabaseAllocation at once, otherwise the
round loop starts with curRange = N and an empty exclusion set and runs
AllocationRounds times. -/
def allocateNodes (env : AllocEnv) (rounds : Nat) (lastTerm : Nat)
    (meta : ResourceMeta) : Except AllocError Peers :=
  if meta.node = 0 then .error .databaseAllocation
  else (allocateLoop env meta lastTerm rounds meta.node []).1

/-- The curRange values consumed by the successive rounds of an allocation
run (observer on the same loop). -/
def allocRanges (env : AllocEnv) (rounds : Nat) (lastTerm : Nat)
    (meta : ResourceMeta) : List Nat :=
  (allocateLoop env meta lastTerm rounds meta.node []).2

/-- Whether a round with the given curRange and exclusion set gets at least
N candidate neighbours and therefore reaches the metric scan (the source
widens curRange only on this path). -/
def reachesMetricStage (env : AllocEnv) (meta : ResourceMeta) (curRange : Nat)
    (exclude : List NodeID) : Bool :=
  meta.node ≤ (candidateNodeIDs env curRange exclude).length

/-- batchSendSingleSvcReq translates the source fan-out helper: one RPC per
node runs concurrently, each goroutine sends its error (possibly nil) to a
buffered channel; after the WaitGroup completes the source receives a single
value from the closed channel. The arrival list is the completion order of
the goroutines, a permutation of the node list; the received value is the
outcome of the first goroutine to complete, and the nil zero value when the
node list is empty. -/
def batchSendSingleSvcReq (outcome : NodeID → Option RPCError)
    (arrival : List NodeID) : Option RPCError :=
  match arrival with
  | [] => none
  | n :: _ => outcome n

/-- Result of batchSendSvcReq: the error the coordinator returns and the
set of nodes to which the compensating request was dispatched. -/
structure BatchSendResult where
  err : Option RPCError
  rollbackTargets : List NodeID
deriving DecidableEq, Repr

/-- batchSendSvcReq translates the source two-phase helper: the forward
request fans out to all nodes; when (and only when) the received error value
is non-nil, the compensating request fans out to all nodes as well, its own
result being discarded, and the forward error is returned. -/
def batchSendSvcReq (outcome rollbackOutcome : NodeID → Option RPCError)
    (nodes : List NodeID) (arrival arrivalRollback : List NodeID) : BatchSendResult :=
  match batchSendSingleSvcReq outcome arrival with
  | some e =>
    let compensation := batchSendSingleSvcReq rollbackOutcome arrivalRollback
    match compensation with
    | _ => { err := some e, rollbackTargets := nodes }
  | none => { err := none, rollbackTargets := [] }

/-- peersToNodes collects the server ids of a peer set (source func
peersToNodes); nil server pointers would crash the source loop and are
skipped here, which coincides on every peer set the service builds. -/
def peersToNodes (peers : Option Peers) : List NodeID :=
  match peers with
  | none => []
  | some p => p.servers.filterMap (fun s => s.map Server.id)

/-- A wt.ServiceInstance as returned to the client on create: database id
plus peer set (genesis block and resource meta carry no verified logic). -/
structure ServiceInstance where
  databaseID : Nat
  peers : Peers
deriving DecidableEq, Repr

/-- Errors surfaced by CreateDatabase. -/
inductive CreateError where
  | alloc (e : AllocError)
  | rpc (e : RPCError)
  | mapSet
deriving DecidableEq, Repr

/-- Oracles consumed by CreateDatabase beyond allocation: the mined database
id (the proof-of-work loop is external CPU mining), the per-node outcomes
and completion orders of the create and compensating drop RPCs, and whether
the final ServiceMap.Set write fails. -/
structure CreateEnv where
  alloc : AllocEnv
  rounds : Nat
  dbID : Nat
  updateOutcome : NodeID → Option RPCError
  rollbackOutcome : NodeID → Option RPCError
  arrival : List NodeID
  arrivalRollback : List NodeID
  serviceMapSetFails : Bool

/-- CreateDatabase translates the service entry point: mine an id, allocate
nodes (lastTerm is 0 in the source call), fan the create request out with a
compensating drop, then record the instance in the service map. Genesis
block construction is external crypto and does not touch the peer set. -/
def CreateDatabase (env : CreateEnv) (meta : ResourceMeta) :
    Except CreateError ServiceInstance :=
  match allocateNodes env.alloc env.rounds 0 meta with
  | .error e => .error (.alloc e)
  | .ok peers =>
    let nodes := peersToNodes (some peers)
    match (batchSendSvcReq env.updateOutcome env.rollbackOutcome nodes
        env.arrival env.arrivalRollback).err with
    | some e => .error (.rpc e)
    | none =>
      if env.serviceMapSetFails then .error .mapSet
      else .ok { databaseID := env.dbID, peers := peers }

end blockproducer

/-! ## Worker database manager (package worker)

Source: src/worker/dbms.go, functions writeMeta, initDatabases, Create,
Drop and the meta helpers over the DBMS struct.
-/

namespace worker

/-- Database identifiers (proto.DatabaseID). -/
abbrev DatabaseID := Nat

/-- Observable lifecycle events of a reconciliation run, in order. -/
inductive DBEvent where
  | created (id : DatabaseID)
  | dropped (id : DatabaseID)
deriving DecidableEq, Repr

/-- Errors of the manager operations. -/
inductive DBMSError where
  | alreadyExists
  | notExists
  | newDatabaseFailed
  | destroyFailed
deriving DecidableEq, Repr

/-- The manager state the claims observe: the keys of the in-memory dbMap
(insertion order), the set of ids held by the on-disk meta file, and the
event trace. -/
structure DBMSState where
  dbMap : List DatabaseID
  metaFile : List DatabaseID
  events : List DBEvent
deriving DecidableEq, Repr

/-- Oracles for the external parts of Create and Drop: whether NewDatabase
succeeds for an id and whether Destroy succeeds. -/
structure DBMSEnv where
  newDatabaseOk : DatabaseID → Bool
  destroyOk : DatabaseID → Bool

/-- writeMeta rewrites the whole meta file from the current dbMap keys
(source func (dbms *DBMS) writeMeta). -/
def writeMeta (s : DBMSState) : DBMSState :=
  { s with metaFile := s.dbMap }

/-- addMeta stores the id in the map unless present and rewrites the meta
file (source func addMeta, LoadOrStore followed by writeMeta). -/
def addMeta (id : DatabaseID) (s : DBMSState) :
    Except DBMSError Unit × DBMSState :=
  if s.dbMap.contains id then (.error .alreadyExists, s)
  else (.ok (), writeMeta { s with dbMap := s.dbMap ++ [id] })

/-- removeMeta deletes the id from the map and rewrites the meta file
(source func removeMeta). -/
def removeMeta (id : DatabaseID) (s : DBMSState) : DBMSState :=
  writeMeta { s with dbMap := s.dbMap.filter (fun x => x != id) }

/-- Create adds a database instance (source func (dbms *DBMS) Create, with
the cleanup flag false as in the reconciliation path). An id already in the
map is AlreadyExists; a NewDatabase failure triggers the deferred cleanup
path, which calls removeMeta; on success the id is added and the meta file
rewritten. -/
def create (env : DBMSEnv) (id : DatabaseID) (s : DBMSState) :
    Except DBMSError Unit × DBMSState :=
  if s.dbMap.contains id then (.error .alreadyExists, s)
  else if env.newDatabaseOk id then
    match addMeta id s with
    | (.ok _, s2) => (.ok (), { s2 with events := s2.events ++ [.created id] })
    | (.error e, s2) => (.error e, removeMeta id s2)
  else
    (.error .newDatabaseFailed, removeMeta id s)

/-- Drop removes a database instance (source func (dbms *DBMS) Drop): an
unknown id is NotExists, a Destroy failure is surfaced before the map entry
and the meta file change. -/
def drop (env : DBMSEnv) (id : DatabaseID) (s : DBMSState) :
    Except DBMSError Unit × DBMSState :=
  if s.dbMap.contains id then
    if env.destroyOk id then
      let s2 := removeMeta id s
      (.ok (), { s2 with events := s2.events ++ [.dropped id] })
    else (.error .destroyFailed, s)
  else (.error .notExists, s)

/-- The create loop at the top of initDatabases, stopping at the first
failing Create. -/
def createAll (env : DBMSEnv) : List DatabaseID → DBMSState →
    Except DBMSError Unit × DBMSState
  | [], s => (.ok (), s)
  | id :: rest, s =>
    match create env id s with
    | (.ok _, s2) => createAll env rest s2
    | (.error e, s2) => (.error e, s2)

/-- The drop loop at the bottom of initDatabases, stopping at the first
failing Drop. -/
def dropAll (env : DBMSEnv) : List DatabaseID → DBMSState →
    Except DBMSError Unit × DBMSState
  | [], s => (.ok (), s)
  | id :: rest, s =>
    match drop env id s with
    | (.ok _, s2) => dropAll env rest s2
    | (.error e, s2) => (.error e, s2)

/-- initDatabases translates the reconciliation (source func (dbms *DBMS)
initDatabases): every instance of the authoritative coordinator list is
created first; the ids present only in the local meta file are dropped
afterwards. metaDBS is the id set read from the meta file, conf the
authoritative list. -/
def initDatabases (env : DBMSEnv) (metaDBS : List DatabaseID)
    (conf : List DatabaseID) (s : DBMSState) :
    Except DBMSError Unit × DBMSState :=
  let currentInstance := conf
  match createAll env conf s with
  | (.error e, s2) => (.error e, s2)
  | (.ok _, s2) =>
    let toDrop := metaDBS.filter (fun id => !currentInstance.contains id)
    dropAll env toDrop s2

/-- The state a fresh DBMS starts from when Init runs: empty in-memory map,
the meta file holding the set read by readMeta, no events yet. -/
def initState (metaDBS : List DatabaseID) : DBMSState :=
  { dbMap := [], metaFile := metaDBS, events := [] }

end worker

/-! ## Private key store (package kms)

Source: src/crypto/kms/privatekeystore.go, functions LoadPrivateKey and
SavePrivateKey. The symmetric cipher, the double hash and the base58check
wrapping are external packages not present under src/ and are modelled from
the spec as stated on each definition.
-/

namespace kms

/-- Raw byte strings. -/
abbrev Bytes := List Nat

/-- hash.HashBSize: the digest length prefixed to the key bytes. -/
def HashBSize : Nat := 32

/-- asymmetric.PrivateKeyBytesLen: the serialized private key length. -/
def PrivateKeyBytesLen : Nat := 32

/-- PrivateKeyStoreVersion byte 0x23 from the source constants. -/
def PrivateKeyStoreVersion : Nat := 35

/-- Modelled from the spec: hash.DoubleHashB, the double-hash of the key
bytes used as integrity prefix. The hash package is not under src/; the
digest is modelled as an injective, length-preserving function of the key
bytes. -/
def DoubleHashB (d : Bytes) : Bytes := d.reverse

/-- Modelled from the spec: a ciphertext produced by the symmetric package
(not under src/), carrying the master key it was encrypted under and the
encrypted payload. -/
structure Ciphertext where
  keyTag : Bytes
  payload : Bytes
deriving DecidableEq, Repr

/-- Error of the symmetric decryption oracle. -/
inductive SymmetricError where
  | decryptFailed
deriving DecidableEq, Repr

/-- Modelled from the spec: symmetric.EncryptWithPassword encrypts data
under the master key. -/
def EncryptWithPassword (data : Bytes) (masterKey : Bytes) : Ciphertext :=
  { keyTag := masterKey, payload := data }

/-- Modelled from the spec: symmetric.DecryptWithPassword; the cipher is
idealised as authenticated, so decryption under a key other than the one
used to encrypt fails instead of producing garbage. -/
def DecryptWithPassword (c : Ciphertext) (masterKey : Bytes) :
    Except SymmetricError Bytes :=
  if c.keyTag = masterKey then .ok c.payload else .error .decryptFailed

/-- Modelled from the spec: the three outcomes of base58.CheckDecode on the
key file content. A wrapped value decodes to its version byte and encrypted
payload; raw legacy binary content makes CheckDecode return
ErrInvalidFormat, after which the source uses the file bytes themselves as
the encrypted data; content with a broken checksum returns ErrChecksum. -/
inductive KeyFileContent where
  | wrapped (version : Nat) (payload : Ciphertext)
  | raw (payload : Ciphertext)
  | corrupt
deriving DecidableEq, Repr

/-- The errors LoadPrivateKey can return: the verbatim base58 checksum
error, ErrInvalidBase58Version, a decryption failure, ErrNotKeyFile for a
wrong decrypted size, and ErrHashNotMatch. -/
inductive LoadError where
  | checksum
  | invalidBase58Version
  | decrypt (e : SymmetricError)
  | notKeyFile
  | hashNotMatch
deriving DecidableEq, Repr

/-- The spec error kind InvalidKeyFormat groups every rejection of a file
that is not a valid key record under the supplied master key; HashMismatch
is the dedicated integrity error. -/
def LoadError.isInvalidKeyFormatKind : LoadError → Bool
  | .checksum => true
  | .invalidBase58Version => true
  | .decrypt _ => true
  | .notKeyFile => true
  | .hashNotMatch => false

/-- The decrypt-and-check tail of LoadPrivateKey: decrypt the payload,
check the decrypted size against digest plus key length, recompute the
double hash of the key bytes and compare with the stored prefix, then
return the key bytes. -/
def loadDecrypt (payload : Ciphertext) (masterKey : Bytes) :
    Except LoadError Bytes :=
  match DecryptWithPassword payload masterKey with
  | .error e => .error (.decrypt e)
  | .ok decData =>
    if decData.length ≠ HashBSize + PrivateKeyBytesLen then .error .notKeyFile
    else if DoubleHashB (decData.drop HashBSize) = decData.take HashBSize then
      .ok (decData.drop HashBSize)
    else .error .hashNotMatch

/-- LoadPrivateKey translates the source loader: checksum failures surface
the base58 error; a wrapped file with a version byte other than zero or
PrivateKeyStoreVersion is ErrInvalidBase58Version; legacy raw content skips
the version check because CheckDecode left the version at its zero value;
the rest is decrypt, size check, hash check. -/
def LoadPrivateKey (file : KeyFileContent) (masterKey : Bytes) :
    Except LoadError Bytes :=
  match file with
  | .corrupt => .error .checksum
  | .wrapped version payload =>
    if version == 0 || version == PrivateKeyStoreVersion then
      loadDecrypt payload masterKey
    else
      .error .invalidBase58Version
  | .raw payload => loadDecrypt payload masterKey

/-- SavePrivateKey translates the source writer: serialize the key, prefix
its double hash, encrypt under the master key and wrap with the store
version byte. -/
def SavePrivateKey (key : Bytes) (masterKey : Bytes) : KeyFileContent :=
  let serializedKey := key
  let keyHash := DoubleHashB serializedKey
  let rawData := keyHash ++ serializedKey
  .wrapped PrivateKeyStoreVersion (EncryptWithPassword rawData masterKey)

end kms

/-! ## Helper lemmas -/

/-- Component-wise TxID comparison agrees with propositional equality. -/
theorem Storage.equalTxID_eq_true_iff (x y : Storage.TxID) :
    Storage.equalTxID x y = true ↔ x = y := by
  cases x
  cases y
  simp [Storage.equalTxID, and_assoc]

/-- Replaying a buffered list whose prefix succeeds stops at the first
failing statement and surfaces its error. -/
theorem Storage.runQueries_first_error (env : Storage.SQLEnv) (pre post : List String)
    (q : String) (e : Storage.SQLError)
    (hpre : ∀ x ∈ pre, env.execStmt x = .ok ()) (hq : env.execStmt q = .error e) :
    Storage.runQueries env (pre ++ q :: post) = some e := by
  induction pre with
  | nil => simp [Storage.runQueries, hq]
  | cons a rest ih =>
    have ha : env.execStmt a = .ok () := hpre a (by simp)
    simp only [List.cons_append, Storage.runQueries, ha]
    exact ih (fun x hx => hpre x (by simp [hx]))

/-- The statement replay only reads the per-statement oracle, so changing
the engine commit outcome does not change it. -/
theorem Storage.runQueries_commitTx_irrel (env : Storage.SQLEnv)
    (c : Except Storage.SQLError Unit) (l : List String) :
    Storage.runQueries { env with commitTx := c } l = Storage.runQueries env l := by
  induction l with
  | nil => rfl
  | cons q rest ih => simp only [Storage.runQueries, ih]

/-! ## Claim theorems: storage participant -/

/-- Claim C3: while a transaction with TxID t1 and buffered query list Q is
active, a Prepare carrying TxID t2 and query list Q2 succeeds and leaves the
buffered list equal to Q2 when t2 equals t1 component-wise, and fails with
the inconsistent-state error leaving the transaction handle, the active
TxID and the buffered list unchanged when t2 differs from t1. -/
theorem C3_prepare_idempotent_or_inconsistent (env : Storage.SQLEnv)
    (s : Storage.State) (el : Storage.ExecLog) (hactive : s.txActive = true) :
    (el.txID = s.id →
      Storage.Prepare env (.execLog el) s = (.ok (), { s with queries := el.queries })) ∧
    (el.txID ≠ s.id →
      Storage.Prepare env (.execLog el) s = (.error (.inconsistentState s.id), s)) := by
  constructor
  · intro h
    have he : Storage.equalTxID s.id el.txID = true :=
      (Storage.equalTxID_eq_true_iff _ _).2 h.symm
    simp [Storage.Prepare, hactive, he]
  · intro h
    cases hb : Storage.equalTxID s.id el.txID with
    | true => exact absurd ((Storage.equalTxID_eq_true_iff _ _).1 hb).symm h
    | false => simp [Storage.Prepare, hactive, hb]

/-- Witness for C3: the idempotent-overwrite branch and the mismatch branch
on a concrete prepared participant. -/
theorem C3_witness :
    Storage.Prepare
        { beginTx := .ok (), execStmt := fun _ => .ok (), commitTx := .ok ()
          runQuery := fun _ => .ok ([], [], []), runExec := fun _ => .ok 0 }
        (.execLog { connectionID := 1, seqNo := 2, timestamp := 3, queries := ["q2"] })
        { txActive := true, id := { connectionID := 1, seqNo := 2, timestamp := 3 }
          queries := ["q1"] } =
      (.ok (), { txActive := true, id := { connectionID := 1, seqNo := 2, timestamp := 3 }
                 queries := ["q2"] }) ∧
    Storage.Prepare
        { beginTx := .ok (), execStmt := fun _ => .ok (), commitTx := .ok ()
          runQuery := fun _ => .ok ([], [], []), runExec := fun _ => .ok 0 }
        (.execLog { connectionID := 9, seqNo := 2, timestamp := 3, queries := ["q2"] })
        { txActive := true, id := { connectionID := 1, seqNo := 2, timestamp := 3 }
          queries := ["q1"] } =
      (.error (.inconsistentState { connectionID := 1, seqNo := 2, timestamp := 3 }),
        { txActive := true, id := { connectionID := 1, seqNo := 2, timestamp := 3 }
          queries := ["q1"] }) :=
  ⟨(C3_prepare_idempotent_or_inconsistent _ _ _ rfl).1 (by decide),
   (C3_prepare_idempotent_or_inconsistent _ _ _ rfl).2 (by decide)⟩

/-- Claim C4: a Commit of the active prepared TxID that hits a failing
buffered statement rolls the transaction back, leaves the participant with
no active transaction and an empty query buffer, surfaces the statement
error, and a follow-up Prepare with any fresh TxID succeeds. (The raw TxID
field keeps its last value, which no longer marks an active transaction;
that retention is the subject of C5.) -/
theorem C4_commit_failure_rolls_back (env : Storage.SQLEnv) (s : Storage.State)
    (el : Storage.ExecLog) (pre post : List String) (q : String) (e : Storage.SQLError)
    (hactive : s.txActive = true) (hmatch : el.txID = s.id)
    (hqs : s.queries = pre ++ q :: post)
    (hpre : ∀ x ∈ pre, env.execStmt x = .ok ()) (hq : env.execStmt q = .error e)
    (hbegin : env.beginTx = .ok ()) :
    Storage.Commit env (.execLog el) s =
      (.error (.sql e), { s with txActive := false, queries := [] }) ∧
    ∀ el2 : Storage.ExecLog,
      Storage.Prepare env (.execLog el2) { s with txActive := false, queries := [] } =
        (.ok (), { txActive := true, id := el2.txID, queries := el2.queries }) := by
  have he : Storage.equalTxID s.id el.txID = true :=
    (Storage.equalTxID_eq_true_iff _ _).2 hmatch.symm
  have hrun : Storage.runQueries env s.queries = some e := by
    rw [hqs]
    exact Storage.runQueries_first_error env pre post q e hpre hq
  constructor
  · simp [Storage.Commit, hactive, he, hrun]
  · intro el2
    simp [Storage.Prepare, hbegin]

/-- Witness for C4: a concrete prepared participant whose second buffered
statement fails. -/
theorem C4_witness :
    Storage.Commit
        { beginTx := .ok ()
          execStmt := fun x => if x = "bad" then .error { msg := "boom" } else .ok ()
          commitTx := .ok (), runQuery := fun _ => .ok ([], [], [])
          runExec := fun _ => .ok 0 }
        (.execLog { connectionID := 1, seqNo := 1, timestamp := 1, queries := [] })
        { txActive := true, id := { connectionID := 1, seqNo := 1, timestamp := 1 }
          queries := ["a", "bad", "c"] } =
      (.error (.sql { msg := "boom" }),
        { txActive := false, id := { connectionID := 1, seqNo := 1, timestamp := 1 }
          queries := [] }) ∧
    Storage.Prepare
        { beginTx := .ok ()
          execStmt := fun x => if x = "bad" then .error { msg := "boom" } else .ok ()
          commitTx := .ok (), runQuery := fun _ => .ok ([], [], [])
          runExec := fun _ => .ok 0 }
        (.execLog { connectionID := 7, seqNo := 8, timestamp := 9, queries := ["z"] })
        { txActive := false, id := { connectionID := 1, seqNo := 1, timestamp := 1 }
          queries := [] } =
      (.ok (), { txActive := true, id := { connectionID := 7, seqNo := 8, timestamp := 9 }
                 queries := ["z"] }) := by
  have h := C4_commit_failure_rolls_back
    { beginTx := .ok ()
      execStmt := fun x => if x = "bad" then .error { msg := "boom" } else .ok ()
      commitTx := .ok (), runQuery := fun _ => .ok ([], [], [])
      runExec := fun _ => .ok 0 }
    { txActive := true, id := { connectionID := 1, seqNo := 1, timestamp := 1 }
      queries := ["a", "bad", "c"] }
    { connectionID := 1, seqNo := 1, timestamp := 1, queries := [] }
    ["a"] ["c"] "bad" { msg := "boom" }
    rfl (by decide) rfl
    (by intro x hx; rw [List.mem_singleton] at hx; subst hx; rfl)
    rfl rfl
  exact ⟨h.1, h.2 { connectionID := 7, seqNo := 8, timestamp := 9, queries := ["z"] }⟩

/-- Claim C5 counterexample: on the concrete run Prepare with TxID (1,1,1)
followed by a completed Commit of the same TxID, the TxID slot still holds
(1,1,1) — it is not cleared — and a later Rollback carrying (1,1,1), a TxID
different from the never-set zero value, is accepted as matching the slot
instead of being rejected. -/
theorem C5_counterexample :
    (let env : Storage.SQLEnv :=
      { beginTx := .ok (), execStmt := fun _ => .ok (), commitTx := .ok ()
        runQuery := fun _ => .ok ([], [], []), runExec := fun _ => .ok 0 }
    let el : Storage.ExecLog :=
      { connectionID := 1, seqNo := 1, timestamp := 1, queries := ["q"] }
    let elEmpty : Storage.ExecLog :=
      { connectionID := 1, seqNo := 1, timestamp := 1, queries := [] }
    let s1 := (Storage.Prepare env (.execLog el) Storage.initialState).2
    let s2 := (Storage.Commit env (.execLog elEmpty) s1).2
    (Storage.Commit env (.execLog elEmpty) s1).1 = .ok () ∧
    s2.txActive = false ∧
    s2.id = { connectionID := 1, seqNo := 1, timestamp := 1 } ∧
    s2.id ≠ Storage.initialState.id ∧
    (Storage.Rollback (.execLog elEmpty) s2).1 = .ok ()) :=
  ⟨rfl, rfl, rfl, by decide, rfl⟩

/-- Claim C5 (amended): a successful Prepare records the incoming TxID, and
Commit and Rollback clear the transaction handle and the query buffer but
leave the TxID field holding its last value; consequently, after a completed
Commit of TxID t, a Rollback carrying t is still accepted as a redundant
rollback against the stale slot, a Rollback carrying any other TxID fails
with the inconsistent-state error, and a Prepare with any TxID starts a
fresh transaction. -/
theorem C5_txid_slot_retained (env : Storage.SQLEnv) (s : Storage.State)
    (el : Storage.ExecLog) (hactive : s.txActive = true) (hmatch : el.txID = s.id)
    (hrun : Storage.runQueries env s.queries = none) :
    Storage.Commit env (.execLog el) s =
      (.ok (), { s with txActive := false, queries := [] }) ∧
    (∀ (s0 : Storage.State) (el0 : Storage.ExecLog), s0.txActive = false →
      env.beginTx = .ok () →
      (Storage.Prepare env (.execLog el0) s0).2.id = el0.txID) ∧
    (∀ (s1 : Storage.State) (el1 : Storage.ExecLog), s1.txActive = true →
      el1.txID = s1.id →
      Storage.Rollback (.execLog el1) s1 =
        (.ok (), { s1 with txActive := false, queries := [] })) ∧
    (∀ el2 : Storage.ExecLog, el2.txID = s.id →
      Storage.Rollback (.execLog el2) { s with txActive := false, queries := [] } =
        (.ok (), { s with txActive := false, queries := [] })) ∧
    (∀ el2 : Storage.ExecLog, el2.txID ≠ s.id →
      (Storage.Rollback (.execLog el2) { s with txActive := false, queries := [] }).1 =
        .error (.inconsistentState s.id)) ∧
    (∀ el2 : Storage.ExecLog, env.beginTx = .ok () →
      (Storage.Prepare env (.execLog el2) { s with txActive := false, queries := [] }).1 =
        .ok ()) := by
  have he : Storage.equalTxID s.id el.txID = true :=
    (Storage.equalTxID_eq_true_iff _ _).2 hmatch.symm
  refine ⟨by simp [Storage.Commit, hactive, he, hrun], ?_, ?_, ?_, ?_, ?_⟩
  · intro s0 el0 hidle hbegin
    simp [Storage.Prepare, hidle, hbegin]
  · intro s1 el1 hact1 hm1
    have he1 : Storage.equalTxID s1.id el1.txID = true :=
      (Storage.equalTxID_eq_true_iff _ _).2 hm1.symm
    simp [Storage.Rollback, he1, hact1]
  · intro el2 hm2
    have he2 : Storage.equalTxID s.id el2.txID = true :=
      (Storage.equalTxID_eq_true_iff _ _).2 hm2.symm
    simp [Storage.Rollback, he2]
  · intro el2 hm2
    cases hb : Storage.equalTxID s.id el2.txID with
    | true => exact absurd ((Storage.equalTxID_eq_true_iff _ _).1 hb).symm hm2
    | false => simp [Storage.Rollback, hb]
  · intro el2 hbegin
    simp [Storage.Prepare, hbegin]

/-- Witness for the amended C5 on a concrete completed commit. -/
theorem C5_witness :
    Storage.Commit
        { beginTx := .ok (), execStmt := fun _ => .ok (), commitTx := .ok ()
          runQuery := fun _ => .ok ([], [], []), runExec := fun _ => .ok 0 }
        (.execLog { connectionID := 1, seqNo := 1, timestamp := 1, queries := [] })
        { txActive := true, id := { connectionID := 1, seqNo := 1, timestamp := 1 }
          queries := ["q"] } =
      (.ok (), { txActive := false, id := { connectionID := 1, seqNo := 1, timestamp := 1 }
                 queries := [] }) ∧
    (Storage.Rollback
        (.execLog { connectionID := 1, seqNo := 1, timestamp := 1, queries := [] })
        { txActive := false, id := { connectionID := 1, seqNo := 1, timestamp := 1 }
          queries := [] }).1 = .ok () := by
  have h := C5_txid_slot_retained
    { beginTx := .ok (), execStmt := fun _ => .ok (), commitTx := .ok ()
      runQuery := fun _ => .ok ([], [], []), runExec := fun _ => .ok 0 }
    { txActive := true, id := { connectionID := 1, seqNo := 1, timestamp := 1 }
      queries := ["q"] }
    { connectionID := 1, seqNo := 1, timestamp := 1, queries := [] }
    rfl (by decide) (by decide)
  refine ⟨h.1, ?_⟩
  have h4 := h.2.2.2.1 { connectionID := 1, seqNo := 1, timestamp := 1, queries := [] }
    (by decide)
  rw [h4]

/-- Claim C9: when every buffered statement replays successfully, Commit
returns nil and moves the participant to the idle state even when the
underlying SQL commit itself fails; the engine commit outcome is discarded,
so the caller sees exactly the result of a successful engine commit. -/
theorem C9_commit_error_discarded (env : Storage.SQLEnv) (s : Storage.State)
    (el : Storage.ExecLog) (e : Storage.SQLError)
    (hactive : s.txActive = true) (hmatch : el.txID = s.id)
    (hrun : Storage.runQueries env s.queries = none)
    (hcommitFails : env.commitTx = .error e) :
    Storage.Commit env (.execLog el) s =
      (.ok (), { s with txActive := false, queries := [] }) ∧
    Storage.Commit env (.execLog el) s =
      Storage.Commit { env with commitTx := .ok () } (.execLog el) s := by
  have he : Storage.equalTxID s.id el.txID = true :=
    (Storage.equalTxID_eq_true_iff _ _).2 hmatch.symm
  have hrun2 : Storage.runQueries { env with commitTx := (.ok () : Except Storage.SQLError Unit) } s.queries = none := by
    rw [Storage.runQueries_commitTx_irrel]
    exact hrun
  constructor
  · simp [Storage.Commit, hactive, he, hrun]
  · simp [Storage.Commit, hactive, he, hrun, hrun2]

/-- Witness for C9: the engine commit fails yet the participant reports
success and goes idle. -/
theorem C9_witness :
    Storage.Commit
        { beginTx := .ok (), execStmt := fun _ => .ok ()
          commitTx := .error { msg := "disk full" }
          runQuery := fun _ => .ok ([], [], []), runExec := fun _ => .ok 0 }
        (.execLog { connectionID := 1, seqNo := 1, timestamp := 1, queries := [] })
        { txActive := true, id := { connectionID := 1, seqNo := 1, timestamp := 1 }
          queries := ["q"] } =
      (.ok (), { txActive := false, id := { connectionID := 1, seqNo := 1, timestamp := 1 }
                 queries := [] }) :=
  (C9_commit_error_discarded
    { beginTx := .ok (), execStmt := fun _ => .ok ()
      commitTx := .error { msg := "disk full" }
      runQuery := fun _ => .ok ([], [], []), runExec := fun _ => .ok 0 }
    { txActive := true, id := { connectionID := 1, seqNo := 1, timestamp := 1 }
      queries := ["q"] }
    { connectionID := 1, seqNo := 1, timestamp := 1, queries := [] }
    { msg := "disk full" }
    rfl (by decide) (by decide) rfl).1

/-- Claim C10: Query with an empty statement list returns empty column
names, empty type names, an empty row set and no error, and Exec with an
empty statement list returns affected-row count 0 and no error; neither
opens a transaction against the SQL engine. -/
theorem C10_empty_statement_lists (env : Storage.SQLEnv) :
    Storage.Query env [] =
      { columns := [], types := [], rows := [], err := none, txOpened := false } ∧
    Storage.Exec env [] =
      { rowsAffected := 0, err := none, txOpened := false } :=
  ⟨rfl, rfl⟩

/-! ## Helper lemmas: peer-set construction and the allocation loop -/

/-- Collapsing a filterMap over a list of filled option slots. -/
theorem filterMap_map_some_map {α β : Type} (f : α → β) (xs : List α) :
    (xs.map some).filterMap (fun o => o.map f) = xs.map f := by
  induction xs with
  | nil => rfl
  | cons a rest ih => simp [ih]

/-- Collapsing the identity filterMap over a list of filled option slots. -/
theorem filterMap_id_map_some {α : Type} (xs : List α) :
    (xs.map some).filterMap id = xs := by
  induction xs with
  | nil => rfl
  | cons a rest ih => simp [ih]

/-- The server assignment loop produces one server per visited node. -/
theorem blockproducer.assignServers_length (li : Nat) (ns : List blockproducer.Node) :
    ∀ i, (blockproducer.assignServers li i ns).length = ns.length := by
  induction ns with
  | nil => intro i; rfl
  | cons n rest ih => intro i; simp [blockproducer.assignServers, ih]

/-- The server assignment loop keeps the node ids in order. -/
theorem blockproducer.assignServers_ids (li : Nat) (ns : List blockproducer.Node) :
    ∀ i, (blockproducer.assignServers li i ns).map blockproducer.Server.id =
      ns.map blockproducer.Node.id := by
  induction ns with
  | nil => intro i; rfl
  | cons n rest ih =>
    intro i
    simp [blockproducer.assignServers, blockproducer.mkServer, ih]

/-- Indexing into the assigned server list. -/
theorem blockproducer.assignServers_get (li : Nat) (ns : List blockproducer.Node) :
    ∀ i j, (blockproducer.assignServers li i ns).get? j =
      (ns.get? j).map (fun n => blockproducer.mkServer li (i + j) n) := by
  induction ns with
  | nil => intro i j; simp [blockproducer.assignServers]
  | cons n rest ih =>
    intro i j
    cases j with
    | zero => simp [blockproducer.assignServers]
    | succ j2 =>
      have harith : i + 1 + j2 = i + (j2 + 1) := by omega
      simp only [blockproducer.assignServers, List.get?_cons_succ, ih (i + 1) j2, harith]

/-- The role of an assembled server is the leader role exactly at the drawn
leader index. -/
theorem blockproducer.mkServer_role_leader_iff (li i : Nat) (n : blockproducer.Node) :
    (blockproducer.mkServer li i n).role = blockproducer.ServerRole.leader ↔ i = li := by
  rw [blockproducer.mkServer]
  by_cases h : i = li
  · simp [h]
  · simp [h]

/-- The assigned server list carries the leader role exactly once when the
leader index falls inside the visited index window, and never otherwise. -/
theorem blockproducer.assignServers_leader_count (li : Nat) (ns : List blockproducer.Node) :
    ∀ i, (blockproducer.assignServers li i ns).countP
        (fun sv => decide (sv.role = blockproducer.ServerRole.leader)) =
      if i ≤ li ∧ li < i + ns.length then 1 else 0 := by
  induction ns with
  | nil =>
    intro i
    rw [show blockproducer.assignServers li i [] = [] from rfl, List.countP_nil,
      if_neg (by simp only [List.length_nil, Nat.add_zero]; omega)]
  | cons n rest ih =>
    intro i
    simp only [blockproducer.assignServers, List.countP_cons, ih (i + 1),
      List.length_cons, decide_eq_true_eq, blockproducer.mkServer_role_leader_iff]
    by_cases h : i = li
    · rw [if_pos h]
      split_ifs <;> omega
    · rw [if_neg h]
      split_ifs <;> omega

/-- Inverting a successful buildPeers: the servers slice is the assignment
over the full neighbour list padded with nil pointers, the leader pointer is
the entry at the drawn leader index, and the neighbour list is no longer
than the allocated list (otherwise the source panics). -/
theorem blockproducer.buildPeers_some (term : Nat) (nodes : List blockproducer.Node)
    (allocated : List blockproducer.NodeID) (li : Nat) (p : blockproducer.Peers)
    (h : blockproducer.buildPeers term nodes allocated li = some p) :
    nodes.length ≤ allocated.length ∧
    p.term = term ∧
    p.servers = (blockproducer.assignServers li 0 nodes).map some ++
      List.replicate (allocated.length - nodes.length) none ∧
    p.leader = (nodes.get? li).map (fun n => blockproducer.mkServer li li n) := by
  simp only [blockproducer.buildPeers] at h
  by_cases hl : nodes.length ≤ allocated.length
  · rw [if_pos hl] at h
    have hp := Option.some.inj h
    subst hp
    exact ⟨hl, rfl, rfl, rfl⟩
  · rw [if_neg hl] at h
    exact absurd h (by simp)

/-- Every id the metric scan allocates has a usable free-memory metric
strictly above the floor. -/
theorem blockproducer.scanMetrics_mem_allocated (env : blockproducer.AllocEnv)
    (floor : Nat) (ids : List blockproducer.NodeID) (x : blockproducer.NodeID)
    (hx : x ∈ (blockproducer.scanMetrics env floor ids).1) :
    ∃ v, env.metricOf x = .value v ∧ floor < v := by
  induction ids with
  | nil => simp [blockproducer.scanMetrics] at hx
  | cons nid rest ih =>
    simp only [blockproducer.scanMetrics] at hx
    cases hm : env.metricOf nid with
    | absent =>
      simp only [hm] at hx
      exact ih hx
    | collectFailed =>
      simp only [hm] at hx
      exact ih hx
    | value v =>
      simp only [hm] at hx
      by_cases hv : floor < v
      · simp only [if_pos hv, List.mem_cons] at hx
        rcases hx with hxe | hxr
        · exact ⟨v, hxe.symm ▸ hm, hv⟩
        · exact ih hxr
      · simp only [if_neg hv] at hx
        exact ih hx

/-- A queried id with a usable metric lands in the allocated list when its
free memory is strictly above the floor and in the exclusion list when it is
at or below the floor. -/
theorem blockproducer.scanMetrics_value_mem (env : blockproducer.AllocEnv)
    (floor : Nat) (ids : List blockproducer.NodeID) (nid : blockproducer.NodeID)
    (v : Nat) (hm : env.metricOf nid = .value v) (hin : nid ∈ ids) :
    (floor < v → nid ∈ (blockproducer.scanMetrics env floor ids).1) ∧
    (v ≤ floor → nid ∈ (blockproducer.scanMetrics env floor ids).2) := by
  induction ids with
  | nil => simp at hin
  | cons a rest ih =>
    rcases List.mem_cons.1 hin with hae | har
    · subst hae
      simp only [blockproducer.scanMetrics, hm]
      constructor
      · intro hv
        simp only [if_pos hv]
        exact List.mem_cons_self _ _
      · intro hv
        simp only [if_neg (by omega : ¬ floor < v)]
        exact List.mem_cons_self _ _
    · have hr := ih har
      simp only [blockproducer.scanMetrics]
      cases hma : env.metricOf a with
      | absent =>
        simp only [hma]
        exact hr
      | collectFailed =>
        simp only [hma]
        exact ⟨hr.1, fun hv => List.mem_cons_of_mem _ (hr.2 hv)⟩
      | value va =>
        simp only [hma]
        by_cases hva : floor < va
        · simp only [if_pos hva]
          exact ⟨fun hv => List.mem_cons_of_mem _ (hr.1 hv), hr.2⟩
        · simp only [if_neg hva]
          exact ⟨hr.1, fun hv => List.mem_cons_of_mem _ (hr.2 hv)⟩

/-- The allocated list of a metric scan is a sublist of the queried ids. -/
theorem blockproducer.scanMetrics_sublist (env : blockproducer.AllocEnv)
    (floor : Nat) (ids : List blockproducer.NodeID) :
    (blockproducer.scanMetrics env floor ids).1.Sublist ids := by
  induction ids with
  | nil => simp [blockproducer.scanMetrics]
  | cons nid rest ih =>
    simp only [blockproducer.scanMetrics]
    cases hm : env.metricOf nid with
    | absent =>
      simp only [hm]
      exact ih.cons nid
    | collectFailed =>
      simp only [hm]
      exact ih.cons nid
    | value v =>
      simp only [hm]
      by_cases hv : floor < v
      · simp only [if_pos hv]
        exact ih.cons₂ nid
      · simp only [if_neg hv]
        exact ih.cons nid

/-- Inverting a successful allocation loop: some executed round had at least
N surviving candidates, its metric scan allocated at least N of them, and
the peer set was built from the first N with that round's neighbour list. -/
theorem blockproducer.allocateLoop_ok_inversion (env : blockproducer.AllocEnv)
    (meta : blockproducer.ResourceMeta) (lastTerm : Nat) :
    ∀ (r curRange : Nat) (exclude : List blockproducer.NodeID) (p : blockproducer.Peers),
    (blockproducer.allocateLoop env meta lastTerm r curRange exclude).1 = .ok p →
    ∃ (cr : Nat) (ex : List blockproducer.NodeID),
      ¬ (blockproducer.candidateNodeIDs env cr ex).length < meta.node ∧
      meta.node ≤ (blockproducer.scanMetrics env meta.memory
        (blockproducer.candidateNodeIDs env cr ex)).1.length ∧
      blockproducer.buildPeers (lastTerm + 1) (env.getNeighbors cr)
        ((blockproducer.scanMetrics env meta.memory
          (blockproducer.candidateNodeIDs env cr ex)).1.take meta.node)
        env.leaderIdx = some p := by
  intro r
  induction r with
  | zero =>
    intro curRange exclude p h
    exact absurd h (by simp [blockproducer.allocateLoop])
  | succ r ih =>
    intro curRange exclude p h
    rw [blockproducer.allocateLoop] at h
    by_cases h1 : (blockproducer.candidateNodeIDs env curRange exclude).length < meta.node
    · rw [if_pos h1] at h
      exact ih curRange exclude p h
    · rw [if_neg h1] at h
      by_cases h2 : meta.node ≤ (blockproducer.scanMetrics env meta.memory
          (blockproducer.candidateNodeIDs env curRange exclude)).1.length
      · rw [if_pos h2] at h
        cases hb : blockproducer.buildPeers (lastTerm + 1) (env.getNeighbors curRange)
            ((blockproducer.scanMetrics env meta.memory
              (blockproducer.candidateNodeIDs env curRange exclude)).1.take meta.node)
            env.leaderIdx with
        | some p2 =>
          rw [hb] at h
          have hpp : p2 = p := by
            simpa using h
          exact ⟨curRange, exclude, h1, h2, hpp ▸ hb⟩
        | none =>
          rw [hb] at h
          simp at h
      · rw [if_neg h2] at h
        exact ih (curRange + meta.node)
          (exclude ++ (blockproducer.scanMetrics env meta.memory
            (blockproducer.candidateNodeIDs env curRange exclude)).2) p h

/-- Inverting a successful CreateDatabase down to its allocation. -/
theorem blockproducer.CreateDatabase_ok_inversion (env : blockproducer.CreateEnv)
    (meta : blockproducer.ResourceMeta) (inst : blockproducer.ServiceInstance)
    (hsucc : blockproducer.CreateDatabase env meta = .ok inst) :
    blockproducer.allocateNodes env.alloc env.rounds 0 meta = .ok inst.peers := by
  cases halloc : blockproducer.allocateNodes env.alloc env.rounds 0 meta with
  | error e =>
    simp [blockproducer.CreateDatabase, halloc] at hsucc
  | ok peers =>
    simp only [blockproducer.CreateDatabase, halloc] at hsucc
    cases hb : (blockproducer.batchSendSvcReq env.updateOutcome env.rollbackOutcome
        (blockproducer.peersToNodes (some peers)) env.arrival env.arrivalRollback).err with
    | some e =>
      simp only [hb] at hsucc
      exact absurd hsucc (by simp)
    | none =>
      simp only [hb] at hsucc
      by_cases hm : env.serviceMapSetFails = true
      · rw [if_pos hm] at hsucc
        exact absurd hsucc (by simp)
      · rw [if_neg hm] at hsucc
        have h2 := Except.ok.inj hsucc
        rw [← h2]

/-! ## Claim theorems: peer-set construction -/

/-- Claim C2: for every successful CreateDatabase with requested replica
count N, the built peer set has exactly N server slots, all filled; exactly
one server carries the leader role and the leader pointer references it; and
the server ids are pairwise distinct and are exactly the node ids allocated
by the winning round of the allocation loop. The hypotheses are the external
collaborator contracts: the consistent ring returns neighbour lists without
duplicate ids, and rand.Intn draws the leader index below N. -/
theorem C2_create_peer_set (env : blockproducer.CreateEnv)
    (meta : blockproducer.ResourceMeta) (inst : blockproducer.ServiceInstance)
    (hleader : env.alloc.leaderIdx < meta.node)
    (hnodup : ∀ range, ((env.alloc.getNeighbors range).map blockproducer.Node.id).Nodup)
    (hsucc : blockproducer.CreateDatabase env meta = .ok inst) :
    inst.peers.servers.length = meta.node ∧
    (∀ sv ∈ inst.peers.servers, sv.isSome = true) ∧
    (inst.peers.servers.filterMap id).countP
      (fun sv => decide (sv.role = blockproducer.ServerRole.leader)) = 1 ∧
    (∃ srv, inst.peers.leader = some srv ∧
      srv.role = blockproducer.ServerRole.leader ∧ some srv ∈ inst.peers.servers) ∧
    (inst.peers.servers.filterMap (fun sv => sv.map blockproducer.Server.id)).Nodup ∧
    (∃ (cr : Nat) (ex : List blockproducer.NodeID),
      inst.peers.servers.filterMap (fun sv => sv.map blockproducer.Server.id) =
        (blockproducer.scanMetrics env.alloc meta.memory
          (blockproducer.candidateNodeIDs env.alloc cr ex)).1.take meta.node) := by
  have halloc := blockproducer.CreateDatabase_ok_inversion env meta inst hsucc
  rw [blockproducer.allocateNodes] at halloc
  rw [if_neg (by omega : ¬ meta.node = 0)] at halloc
  obtain ⟨cr, ex, h1, h2, hb⟩ :=
    blockproducer.allocateLoop_ok_inversion env.alloc meta 0 env.rounds meta.node []
      inst.peers halloc
  obtain ⟨hle, hterm, hservers, hleaderEq⟩ :=
    blockproducer.buildPeers_some _ _ _ _ _ hb
  have hAllocLen :
      ((blockproducer.scanMetrics env.alloc meta.memory
        (blockproducer.candidateNodeIDs env.alloc cr ex)).1.take meta.node).length =
        meta.node := by
    rw [List.length_take]
    exact Nat.min_eq_left h2
  have hcandLe :
      (blockproducer.candidateNodeIDs env.alloc cr ex).length ≤
        (env.alloc.getNeighbors cr).length := by
    have hfl := List.length_filter_le
      (fun nid => !ex.contains nid) ((env.alloc.getNeighbors cr).map blockproducer.Node.id)
    rw [List.length_map] at hfl
    exact hfl
  have hNodesLen : (env.alloc.getNeighbors cr).length = meta.node := by
    rw [hAllocLen] at hle
    omega
  rw [hAllocLen, hNodesLen, Nat.sub_self, List.replicate_zero, List.append_nil] at hservers
  have hli : env.alloc.leaderIdx < (env.alloc.getNeighbors cr).length := by omega
  refine ⟨?_, ?_, ?_, ?_, ?_, ?_⟩
  · rw [hservers, List.length_map, blockproducer.assignServers_length]
    exact hNodesLen
  · rw [hservers]
    intro sv hsv
    rcases List.mem_map.1 hsv with ⟨srv, _, hsrv⟩
    rw [← hsrv]
    rfl
  · rw [hservers, filterMap_id_map_some, blockproducer.assignServers_leader_count]
    rw [if_pos ⟨Nat.zero_le _, by omega⟩]
  · rw [List.get?_eq_get hli] at hleaderEq
    refine ⟨blockproducer.mkServer env.alloc.leaderIdx env.alloc.leaderIdx
      ((env.alloc.getNeighbors cr).get ⟨env.alloc.leaderIdx, hli⟩), hleaderEq, ?_, ?_⟩
    · exact (blockproducer.mkServer_role_leader_iff _ _ _).2 rfl
    · rw [hservers]
      refine List.mem_map_of_mem some ?_
      have hget := blockproducer.assignServers_get env.alloc.leaderIdx
        (env.alloc.getNeighbors cr) 0 env.alloc.leaderIdx
      rw [Nat.zero_add, List.get?_eq_get hli] at hget
      exact List.get?_mem hget
  · rw [hservers, filterMap_map_some_map, blockproducer.assignServers_ids]
    exact hnodup cr
  · refine ⟨cr, ex, ?_⟩
    rw [hservers, filterMap_map_some_map, blockproducer.assignServers_ids]
    have hsub :
        ((blockproducer.scanMetrics env.alloc meta.memory
          (blockproducer.candidateNodeIDs env.alloc cr ex)).1.take meta.node).Sublist
          ((env.alloc.getNeighbors cr).map blockproducer.Node.id) :=
      ((List.take_sublist _ _).trans
        (blockproducer.scanMetrics_sublist env.alloc meta.memory _)).trans
        (List.filter_sublist _)
    have heq := hsub.eq_of_length (by rw [hAllocLen, List.length_map, hNodesLen])
    rw [heq]

/-- Witness for C2: two healthy neighbours, replica count 2; CreateDatabase
succeeds and the built peer set is audited. -/
theorem C2_witness :
    blockproducer.CreateDatabase
        { alloc := { getNeighbors := fun _ => [{ id := 1, publicKey := 10 },
                       { id := 2, publicKey := 20 }]
                     metricOf := fun _ => .value 2000, leaderIdx := 0 }
          rounds := 3, dbID := 42, updateOutcome := fun _ => none
          rollbackOutcome := fun _ => none, arrival := [1, 2]
          arrivalRollback := [1, 2], serviceMapSetFails := false }
        { node := 2, memory := 1000 } =
      .ok { databaseID := 42
            peers := { term := 1
                       servers := [some { role := .leader, id := 1, pubKey := 10 },
                         some { role := .follower, id := 2, pubKey := 20 }]
                       leader := some { role := .leader, id := 1, pubKey := 10 } } } ∧
    ({ databaseID := 42
       peers := { term := 1
                  servers := [some { role := .leader, id := 1, pubKey := 10 },
                    some { role := .follower, id := 2, pubKey := 20 }]
                  leader := some { role := .leader, id := 1, pubKey := 10 } } } :
        blockproducer.ServiceInstance).peers.servers.length = 2 ∧
    (({ databaseID := 42
        peers := { term := 1
                   servers := [some { role := .leader, id := 1, pubKey := 10 },
                     some { role := .follower, id := 2, pubKey := 20 }]
                   leader := some { role := .leader, id := 1, pubKey := 10 } } } :
        blockproducer.ServiceInstance).peers.servers.filterMap id).countP
      (fun sv => decide (sv.role = blockproducer.ServerRole.leader)) = 1 := by
  have h := C2_create_peer_set
    { alloc := { getNeighbors := fun _ => [{ id := 1, publicKey := 10 },
                   { id := 2, publicKey := 20 }]
                 metricOf := fun _ => .value 2000, leaderIdx := 0 }
      rounds := 3, dbID := 42, updateOutcome := fun _ => none
      rollbackOutcome := fun _ => none, arrival := [1, 2]
      arrivalRollback := [1, 2], serviceMapSetFails := false }
    { node := 2, memory := 1000 }
    { databaseID := 42
      peers := { term := 1
                 servers := [some { role := .leader, id := 1, pubKey := 10 },
                   some { role := .follower, id := 2, pubKey := 20 }]
                 leader := some { role := .leader, id := 1, pubKey := 10 } } }
    (by decide)
    (fun _ => (by decide :
      (([{ id := 1, publicKey := 10 }, { id := 2, publicKey := 20 }] :
        List blockproducer.Node).map blockproducer.Node.id).Nodup))
    rfl
  exact ⟨rfl, h.1, h.2.2.1⟩

/-! ## Claim theorems: batched worker RPC fan-out -/

/-- Claim C1 counterexample: with nodes 1 and 2 where the RPC to node 1
succeeds and the RPC to node 2 fails, and completion order 1 then 2, the
fan-out helper returns nil and dispatches no compensating request even
though one reply errored — the channel is not drained beyond its first
value. -/
theorem C1_counterexample :
    blockproducer.batchSendSingleSvcReq
      (fun n => if n = 2 then some 7 else none) [1, 2] = none ∧
    [1, 2].map (fun n => if n = 2 then some 7 else none) = [none, some 7] ∧
    (blockproducer.batchSendSvcReq (fun n => if n = 2 then some 7 else none)
      (fun _ => none) [1, 2] [1, 2] [1, 2]).err = none ∧
    (blockproducer.batchSendSvcReq (fun n => if n = 2 then some 7 else none)
      (fun _ => none) [1, 2] [1, 2] [1, 2]).rollbackTargets = [] :=
  ⟨rfl, rfl, rfl, rfl⟩

/-- Claim C1 (amended): the coordinator waits for all replies — the
completion order is a permutation of the node list — but receives only one
value from the error channel: the returned error is the outcome of the node
whose goroutine completed first; success is reported whenever that first
outcome is nil, even if a later reply errored; and the compensating request
is dispatched to every node exactly when the first outcome is non-nil. In
particular the call still returns nil whenever every reply is nil. -/
theorem C1_first_arrival_decides
    (outcome rollbackOutcome : blockproducer.NodeID → Option blockproducer.RPCError)
    (nodes arrival arrivalRb : List blockproducer.NodeID)
    (hperm : arrival.Perm nodes) (hne : nodes ≠ []) :
    ∃ firstNode rest, arrival = firstNode :: rest ∧ firstNode ∈ nodes ∧
      (blockproducer.batchSendSvcReq outcome rollbackOutcome nodes
        arrival arrivalRb).err = outcome firstNode ∧
      (blockproducer.batchSendSvcReq outcome rollbackOutcome nodes
        arrival arrivalRb).rollbackTargets =
        (if (outcome firstNode).isSome then nodes else []) ∧
      ((∀ n ∈ nodes, outcome n = none) →
        (blockproducer.batchSendSvcReq outcome rollbackOutcome nodes
          arrival arrivalRb).err = none) := by
  cases harr : arrival with
  | nil =>
    rw [harr] at hperm
    exact absurd hperm.symm.eq_nil hne
  | cons f rest =>
    rw [harr] at hperm
    have hmem : f ∈ nodes := hperm.mem_iff.1 (by simp)
    refine ⟨f, rest, rfl, hmem, ?_, ?_, ?_⟩
    · cases ho : outcome f <;>
        simp [blockproducer.batchSendSvcReq, blockproducer.batchSendSingleSvcReq, ho]
    · cases ho : outcome f <;>
        simp [blockproducer.batchSendSvcReq, blockproducer.batchSendSingleSvcReq, ho]
    · intro hall
      have hf : outcome f = none := hall f hmem
      simp [blockproducer.batchSendSvcReq, blockproducer.batchSendSingleSvcReq, hf]

/-- Witness for the amended C1: two nodes, all replies nil, completion order
reversed; the call reports success. -/
theorem C1_witness :
    (blockproducer.batchSendSvcReq (fun _ => none) (fun _ => none)
      [1, 2] [2, 1] [1, 2]).err = none := by
  obtain ⟨f, rest, harr, hmem, herr, htgt, hsucc⟩ :=
    C1_first_arrival_decides (fun _ => none) (fun _ => none) [1, 2] [2, 1] [1, 2]
      (by decide) (by decide)
  exact hsucc (fun n _ => rfl)

/-! ## Claim theorems: allocation loop -/

/-- Claim C6 counterexample: a single neighbour node reporting free memory
exactly equal to the request floor of 100 is excluded by the metric scan
(the claim says a node at the floor survives), and the round that failed for
lack of candidates does not widen curRange: the recorded ranges over the
three rounds are 1, 2, 2 where the claim predicts 1, 2, 3; the run ends in
AllocationFailed. -/
theorem C6_counterexample :
    (let env : blockproducer.AllocEnv :=
      { getNeighbors := fun _ => [{ id := 5, publicKey := 0 }]
        metricOf := fun _ => .value 100, leaderIdx := 0 }
    env.metricOf 5 = .value 100 ∧
    (blockproducer.scanMetrics env 100 [5]).1 = [] ∧
    (blockproducer.scanMetrics env 100 [5]).2 = [5] ∧
    blockproducer.allocRanges env 3 0 { node := 1, memory := 100 } = [1, 2, 2] ∧
    blockproducer.allocateNodes env 3 0 { node := 1, memory := 100 } =
      .error .databaseAllocation) :=
  ⟨rfl, rfl, rfl, rfl, rfl⟩

/-- Claim C6 (amended): a candidate node with a usable free-memory metric is
allocated exactly when its reported value is strictly above the request
floor, and a value at or below the floor sends the node to the exclusion
set; a round that fails with fewer than N surviving candidate neighbours
retries with the unchanged curRange — only a round that reaches the metric
scan and still cannot allocate N nodes widens curRange by N before the next
round; and when no round can reach the metric scan the loop exhausts all
rounds and returns AllocationFailed. -/
theorem C6_allocation_behaviour (env : blockproducer.AllocEnv)
    (meta : blockproducer.ResourceMeta) (lastTerm : Nat) :
    (∀ (floor : Nat) (ids : List blockproducer.NodeID)
        (nid : blockproducer.NodeID) (v : Nat),
      env.metricOf nid = .value v → nid ∈ ids →
        ((nid ∈ (blockproducer.scanMetrics env floor ids).1 ↔ floor < v) ∧
         (v ≤ floor → nid ∈ (blockproducer.scanMetrics env floor ids).2))) ∧
    (∀ (r curRange : Nat) (exclude : List blockproducer.NodeID),
      blockproducer.reachesMetricStage env meta curRange exclude = false →
        blockproducer.allocateLoop env meta lastTerm (r + 1) curRange exclude =
          ((blockproducer.allocateLoop env meta lastTerm r curRange exclude).1,
            curRange ::
              (blockproducer.allocateLoop env meta lastTerm r curRange exclude).2)) ∧
    (∀ (r curRange : Nat) (exclude : List blockproducer.NodeID),
      blockproducer.reachesMetricStage env meta curRange exclude = true →
      (blockproducer.scanMetrics env meta.memory
        (blockproducer.candidateNodeIDs env curRange exclude)).1.length < meta.node →
        blockproducer.allocateLoop env meta lastTerm (r + 1) curRange exclude =
          ((blockproducer.allocateLoop env meta lastTerm r (curRange + meta.node)
              (exclude ++ (blockproducer.scanMetrics env meta.memory
                (blockproducer.candidateNodeIDs env curRange exclude)).2)).1,
            curRange ::
              (blockproducer.allocateLoop env meta lastTerm r (curRange + meta.node)
                (exclude ++ (blockproducer.scanMetrics env meta.memory
                  (blockproducer.candidateNodeIDs env curRange exclude)).2)).2)) ∧
    (∀ (r curRange : Nat) (exclude : List blockproducer.NodeID),
      (∀ cr ex, blockproducer.reachesMetricStage env meta cr ex = false) →
        (blockproducer.allocateLoop env meta lastTerm r curRange exclude).1 =
          .error .databaseAllocation) := by
  refine ⟨?_, ?_, ?_, ?_⟩
  · intro floor ids nid v hm hin
    have hv := blockproducer.scanMetrics_value_mem env floor ids nid v hm hin
    refine ⟨⟨?_, hv.1⟩, hv.2⟩
    intro hmem
    obtain ⟨v2, hm2, hfl⟩ :=
      blockproducer.scanMetrics_mem_allocated env floor ids nid hmem
    rw [hm] at hm2
    injection hm2 with hv2
    rw [hv2]
    exact hfl
  · intro r curRange exclude hfalse
    rw [blockproducer.reachesMetricStage] at hfalse
    have hlt : (blockproducer.candidateNodeIDs env curRange exclude).length <
        meta.node := by
      have := of_decide_eq_false hfalse
      omega
    simp only [blockproducer.allocateLoop, if_pos hlt]
  · intro r curRange exclude htrue hlt2
    rw [blockproducer.reachesMetricStage] at htrue
    have hge : meta.node ≤
        (blockproducer.candidateNodeIDs env curRange exclude).length :=
      of_decide_eq_true htrue
    simp only [blockproducer.allocateLoop, if_neg (by omega :
        ¬ (blockproducer.candidateNodeIDs env curRange exclude).length < meta.node),
      if_neg (by omega : ¬ meta.node ≤ (blockproducer.scanMetrics env meta.memory
        (blockproducer.candidateNodeIDs env curRange exclude)).1.length)]
  · intro r
    induction r with
    | zero => intro curRange exclude _; rfl
    | succ r ih =>
      intro curRange exclude h
      have hfalse := h curRange exclude
      rw [blockproducer.reachesMetricStage] at hfalse
      have hlt : (blockproducer.candidateNodeIDs env curRange exclude).length <
          meta.node := by
        have := of_decide_eq_false hfalse
        omega
      simp only [blockproducer.allocateLoop, if_pos hlt]
      exact ih curRange exclude h

/-- Witness for the amended C6: a node strictly above the floor is
allocated, and an environment whose ring never returns a node exhausts the
rounds into AllocationFailed. -/
theorem C6_witness :
    (5 : blockproducer.NodeID) ∈
      (blockproducer.scanMetrics
        { getNeighbors := fun _ => [{ id := 5, publicKey := 0 }]
          metricOf := fun _ => .value 101, leaderIdx := 0 } 100 [5]).1 ∧
    (blockproducer.allocateLoop
      { getNeighbors := fun _ => [], metricOf := fun _ => .absent, leaderIdx := 0 }
      { node := 1, memory := 100 } 0 3 1 []).1 = .error .databaseAllocation := by
  constructor
  · exact ((C6_allocation_behaviour
      { getNeighbors := fun _ => [{ id := 5, publicKey := 0 }]
        metricOf := fun _ => .value 101, leaderIdx := 0 }
      { node := 1, memory := 100 } 0).1 100 [5] 5 101 rfl (by decide)).1.mpr (by decide)
  · exact (C6_allocation_behaviour
      { getNeighbors := fun _ => [], metricOf := fun _ => .absent, leaderIdx := 0 }
      { node := 1, memory := 100 } 0).2.2.2 3 1 [] (fun cr ex => rfl)

/-! ## Helper lemmas: worker reconciliation -/

/-- A successful Create appends the id to the registry, rewrites the meta
file to the new registry, records the created event, and implies the id was
not registered before. -/
theorem worker.create_ok (env : worker.DBMSEnv) (id : worker.DatabaseID)
    (s : worker.DBMSState) (h : (worker.create env id s).1 = .ok ()) :
    (worker.create env id s).2 =
      { dbMap := s.dbMap ++ [id], metaFile := s.dbMap ++ [id]
        events := s.events ++ [.created id] } ∧
    s.dbMap.contains id = false := by
  by_cases h1 : s.dbMap.contains id = true
  · rw [worker.create, if_pos h1] at h
    exact absurd h (by simp)
  · have h1f : s.dbMap.contains id = false := by
      cases hcc : s.dbMap.contains id
      · rfl
      · exact absurd hcc h1
    by_cases h2 : env.newDatabaseOk id = true
    · refine ⟨?_, h1f⟩
      simp only [worker.create, if_neg h1, if_pos h2, worker.addMeta, worker.writeMeta]
    · rw [worker.create, if_neg h1, if_neg h2] at h
      exact absurd h (by simp)

/-- A successful create loop appends the created ids to the registry in
order, rewrites the meta file to the final registry whenever at least one id
was created, and records one created event per id in order. -/
theorem worker.createAll_ok (env : worker.DBMSEnv) :
    ∀ (conf : List worker.DatabaseID) (s : worker.DBMSState),
    (worker.createAll env conf s).1 = .ok () →
    (worker.createAll env conf s).2 =
      { dbMap := s.dbMap ++ conf
        metaFile := if conf.isEmpty then s.metaFile else s.dbMap ++ conf
        events := s.events ++ conf.map worker.DBEvent.created } := by
  intro conf
  induction conf with
  | nil =>
    intro s _
    simp [worker.createAll]
  | cons id rest ih =>
    intro s h
    rw [worker.createAll] at h ⊢
    cases hc : worker.create env id s with
    | mk res s2 =>
      rw [hc] at h
      cases res with
      | error e => exact absurd h (by simp)
      | ok u =>
        cases u
        replace h : (worker.createAll env rest s2).1 = .ok () := h
        have hcre := worker.create_ok env id s (by rw [hc])
        have hs2 : s2 =
            { dbMap := s.dbMap ++ [id], metaFile := s.dbMap ++ [id]
              events := s.events ++ [.created id] } := by
          have hx := hcre.1
          rw [hc] at hx
          exact hx
        subst hs2
        rw [ih _ h]
        cases rest with
        | nil => simp
        | cons r2 rs => simp

/-- Dropping an unregistered id fails at once with NotExists. -/
theorem worker.dropAll_head_not_exists (env : worker.DBMSEnv)
    (d : worker.DatabaseID) (rest : List worker.DatabaseID) (s : worker.DBMSState)
    (hd : s.dbMap.contains d = false) :
    (worker.dropAll env (d :: rest) s).1 = .error .notExists := by
  rw [worker.dropAll, worker.drop, hd]
  rfl

/-! ## Claim theorems: worker reconciliation -/

/-- Claim C7: for every worker Init-style reconciliation run starting from
an empty registry with local meta set M and authoritative list C in which
every Create and Drop succeeds, all creations happen before any drop — in
fact a successful run performs no drop at all, because ids in M outside C
were never loaded into the registry and their Drop would fail — and after
the run the in-memory registry holds exactly the ids of C, the on-disk meta
file holds the same set as the registry, and the event trace is exactly one
creation per id of C in order. -/
theorem C7_init_reconciliation (env : worker.DBMSEnv)
    (metaDBS conf : List worker.DatabaseID)
    (hsucc : (worker.initDatabases env metaDBS conf
      (worker.initState metaDBS)).1 = .ok ()) :
    (worker.initDatabases env metaDBS conf (worker.initState metaDBS)).2.dbMap =
      conf ∧
    (worker.initDatabases env metaDBS conf (worker.initState metaDBS)).2.metaFile =
      (worker.initDatabases env metaDBS conf (worker.initState metaDBS)).2.dbMap ∧
    (worker.initDatabases env metaDBS conf (worker.initState metaDBS)).2.events =
      conf.map worker.DBEvent.created := by
  cases hca : worker.createAll env conf (worker.initState metaDBS) with
  | mk res s2 =>
    cases res with
    | error e =>
      rw [worker.initDatabases, hca] at hsucc
      exact absurd hsucc (by simp)
    | ok u =>
      cases u
      have hca1 : (worker.createAll env conf (worker.initState metaDBS)).1 = .ok () := by
        rw [hca]
      have hs2 : s2 =
          { dbMap := conf, metaFile := if conf.isEmpty then metaDBS else conf
            events := conf.map worker.DBEvent.created } := by
        have h2 := worker.createAll_ok env conf (worker.initState metaDBS) hca1
        rw [hca] at h2
        simpa [worker.initState] using h2
      have hdrop : (worker.dropAll env
          (metaDBS.filter (fun id => !conf.contains id)) s2).1 = .ok () := by
        rw [worker.initDatabases, hca] at hsucc
        exact hsucc
      have htd : metaDBS.filter (fun id => !conf.contains id) = [] := by
        cases htd2 : metaDBS.filter (fun id => !conf.contains id) with
        | nil => rfl
        | cons d rest =>
          have hdmem : d ∈ metaDBS.filter (fun id => !conf.contains id) := by
            rw [htd2]
            exact List.mem_cons_self _ _
          have hp := List.of_mem_filter hdmem
          have hcontains : conf.contains d = false := by
            cases hcc : conf.contains d
            · rfl
            · rw [hcc] at hp
              exact absurd hp (by decide)
          have hfail := worker.dropAll_head_not_exists env d rest s2
            (by rw [hs2]; exact hcontains)
          rw [htd2, hfail] at hdrop
          exact absurd hdrop (by simp)
      have hout : worker.initDatabases env metaDBS conf (worker.initState metaDBS) =
          (.ok (), s2) := by
        rw [worker.initDatabases, hca, htd]
        rfl
      rw [hout, hs2]
      refine ⟨rfl, ?_, rfl⟩
      cases hconf : conf with
      | nil =>
        have hnil : metaDBS = [] := by
          cases hmd : metaDBS with
          | nil => rfl
          | cons m ms =>
            rw [hconf, hmd] at htd
            simp at htd
        simp [hnil]
      | cons c cs => simp

/-- Witness for C7: local meta lists database 2, the coordinator reports
databases 2 and 3; the run succeeds, the registry and the meta file end as
the coordinator list, and the trace is creations only. -/
theorem C7_witness :
    (worker.initDatabases
      { newDatabaseOk := fun _ => true, destroyOk := fun _ => true } [2] [2, 3]
      (worker.initState [2])).2.dbMap = [2, 3] ∧
    (worker.initDatabases
      { newDatabaseOk := fun _ => true, destroyOk := fun _ => true } [2] [2, 3]
      (worker.initState [2])).2.metaFile =
      (worker.initDatabases
        { newDatabaseOk := fun _ => true, destroyOk := fun _ => true } [2] [2, 3]
        (worker.initState [2])).2.dbMap ∧
    (worker.initDatabases
      { newDatabaseOk := fun _ => true, destroyOk := fun _ => true } [2] [2, 3]
      (worker.initState [2])).2.events = [2, 3].map worker.DBEvent.created :=
  C7_init_reconciliation
    { newDatabaseOk := fun _ => true, destroyOk := fun _ => true } [2] [2, 3] rfl

/-! ## Helper lemmas: private key store -/

/-- Decrypting and checking the payload written by the saver under the same
master key recovers the key bytes. -/
theorem kms.loadDecrypt_saved (key m : kms.Bytes)
    (hlen : key.length = kms.PrivateKeyBytesLen) :
    kms.loadDecrypt
      (kms.EncryptWithPassword (kms.DoubleHashB key ++ key) m) m = .ok key := by
  have hhash : (kms.DoubleHashB key).length = kms.HashBSize := by
    rw [kms.DoubleHashB, List.length_reverse, hlen]
    rfl
  have hdec : kms.DecryptWithPassword
      (kms.EncryptWithPassword (kms.DoubleHashB key ++ key) m) m =
      .ok (kms.DoubleHashB key ++ key) := by
    simp [kms.DecryptWithPassword, kms.EncryptWithPassword]
  have hlen2 : (kms.DoubleHashB key ++ key).length =
      kms.HashBSize + kms.PrivateKeyBytesLen := by
    rw [List.length_append, hhash, hlen]
  have hdrop : (kms.DoubleHashB key ++ key).drop kms.HashBSize = key := by
    have hd := List.drop_left (kms.DoubleHashB key) key
    rw [hhash] at hd
    exact hd
  have htake : (kms.DoubleHashB key ++ key).take kms.HashBSize =
      kms.DoubleHashB key := by
    have ht := List.take_left (kms.DoubleHashB key) key
    rw [hhash] at ht
    exact ht
  rw [kms.loadDecrypt]
  simp only [hdec]
  rw [if_neg (by omega : ¬ (kms.DoubleHashB key ++ key).length ≠
    kms.HashBSize + kms.PrivateKeyBytesLen)]
  rw [hdrop, htake, if_pos rfl]

/-- Inverting a successful decrypt-and-check: the payload decrypts under the
supplied master key to a well-formed record, the double hash of the returned
key bytes over its stored prefix. -/
theorem kms.loadDecrypt_ok_inversion (payload : kms.Ciphertext) (m key : kms.Bytes)
    (h : kms.loadDecrypt payload m = .ok key) :
    key.length = kms.PrivateKeyBytesLen ∧
    kms.DecryptWithPassword payload m = .ok (kms.DoubleHashB key ++ key) := by
  rw [kms.loadDecrypt] at h
  cases hd : kms.DecryptWithPassword payload m with
  | error e =>
    simp only [hd] at h
    exact absurd h (by simp)
  | ok decData =>
    simp only [hd] at h
    by_cases hl : decData.length ≠ kms.HashBSize + kms.PrivateKeyBytesLen
    · rw [if_pos hl] at h
      exact absurd h (by simp)
    · rw [if_neg hl] at h
      by_cases hh : kms.DoubleHashB (decData.drop kms.HashBSize) =
          decData.take kms.HashBSize
      · rw [if_pos hh] at h
        have hkey := Except.ok.inj h
        have hlen64 : decData.length = kms.HashBSize + kms.PrivateKeyBytesLen := by
          omega
        constructor
        · rw [← hkey, List.length_drop, hlen64, kms.HashBSize, kms.PrivateKeyBytesLen]
        · have hgoal : kms.DoubleHashB key ++ key = decData := by
            rw [← hkey, hh]
            exact List.take_append_drop kms.HashBSize decData
          exact congrArg Except.ok hgoal.symm
      · rw [if_neg hh] at h
        exact absurd h (by simp)

/-! ## Claim theorems: private key store -/

/-- Claim C8 counterexample: replacing the stored file with the valid save
of a different key under the same master key is a tampering of the stored
payload, yet LoadPrivateKey returns that other key instead of a HashMismatch
or InvalidKeyFormat error. -/
theorem C8_counterexample :
    kms.SavePrivateKey (List.replicate 32 2) [9] ≠
      kms.SavePrivateKey (List.replicate 32 1) [9] ∧
    kms.LoadPrivateKey (kms.SavePrivateKey (List.replicate 32 2) [9]) [9] =
      .ok (List.replicate 32 2) :=
  ⟨by decide, rfl⟩

/-- Claim C8 (amended): loading the file written by SavePrivateKey under the
same master key returns the original key bytes; a wrong master key is
rejected with a decryption error (an InvalidKeyFormat-kind rejection in this
model); and a load only ever returns a key when the file is one of the
accepted shapes (store-version wrapped, zero-version wrapped, or legacy raw)
and its payload decrypts under the supplied master key to a well-formed
hash-prefixed key record — so any tampering other than substituting another
validly encrypted key record is rejected, while a substituted valid record
loads as that record's key. -/
theorem C8_key_store_round_trip :
    (∀ (key m : kms.Bytes), key.length = kms.PrivateKeyBytesLen →
      kms.LoadPrivateKey (kms.SavePrivateKey key m) m = .ok key) ∧
    (∀ (key m m2 : kms.Bytes), m2 ≠ m →
      kms.LoadPrivateKey (kms.SavePrivateKey key m) m2 =
        .error (.decrypt .decryptFailed) ∧
      (kms.LoadError.decrypt .decryptFailed).isInvalidKeyFormatKind = true) ∧
    (∀ (file : kms.KeyFileContent) (m key : kms.Bytes),
      kms.LoadPrivateKey file m = .ok key →
      key.length = kms.PrivateKeyBytesLen ∧
      ∃ payload, (file = .wrapped 0 payload ∨
          file = .wrapped kms.PrivateKeyStoreVersion payload ∨
          file = .raw payload) ∧
        kms.DecryptWithPassword payload m = .ok (kms.DoubleHashB key ++ key)) := by
  refine ⟨?_, ?_, ?_⟩
  · intro key m hlen
    rw [kms.SavePrivateKey, kms.LoadPrivateKey]
    rw [if_pos (by decide :
      ((kms.PrivateKeyStoreVersion == 0 ||
        kms.PrivateKeyStoreVersion == kms.PrivateKeyStoreVersion) = true))]
    exact kms.loadDecrypt_saved key m hlen
  · intro key m m2 hne
    refine ⟨?_, rfl⟩
    rw [kms.SavePrivateKey, kms.LoadPrivateKey]
    rw [if_pos (by decide :
      ((kms.PrivateKeyStoreVersion == 0 ||
        kms.PrivateKeyStoreVersion == kms.PrivateKeyStoreVersion) = true))]
    rw [kms.loadDecrypt, kms.EncryptWithPassword, kms.DecryptWithPassword]
    rw [if_neg (fun hc => hne hc.symm)]
  · intro file m key h
    cases file with
    | corrupt =>
      rw [kms.LoadPrivateKey] at h
      exact absurd h (by simp)
    | raw payload =>
      rw [kms.LoadPrivateKey] at h
      have hi := kms.loadDecrypt_ok_inversion payload m key h
      exact ⟨hi.1, payload, Or.inr (Or.inr rfl), hi.2⟩
    | wrapped v payload =>
      rw [kms.LoadPrivateKey] at h
      by_cases hv : (v == 0 || v == kms.PrivateKeyStoreVersion) = true
      · rw [if_pos hv] at h
        have hi := kms.loadDecrypt_ok_inversion payload m key h
        rcases Bool.or_eq_true_iff.1 hv with hv0 | hvs
        · exact ⟨hi.1, payload, Or.inl (by rw [beq_iff_eq.1 hv0]), hi.2⟩
        · exact ⟨hi.1, payload,
            Or.inr (Or.inl (by rw [beq_iff_eq.1 hvs])), hi.2⟩
      · rw [if_neg hv] at h
        exact absurd h (by simp)

/-- Witness for the amended C8: a concrete key round-trips under master key
9 and is rejected under master key 8. -/
theorem C8_witness :
    kms.LoadPrivateKey (kms.SavePrivateKey (List.replicate 32 1) [9]) [9] =
      .ok (List.replicate 32 1) ∧
    kms.LoadPrivateKey (kms.SavePrivateKey (List.replicate 32 1) [9]) [8] =
      .error (.decrypt .decryptFailed) := by
  have h := C8_key_store_round_trip
  exact ⟨h.1 (List.replicate 32 1) [9] (by decide),
    (h.2.1 (List.replicate 32 1) [9] [8] (by decide)).1⟩

end CovenantSQL
